import Mathlib

/-!
Verification of the Arabico spaced-repetition scheduling engine
(`src/lib/review/srs-algorithm.ts` and `src/lib/review/review-queue.ts`).

Modelling conventions:
* JavaScript `number` values that hold quantities with fractional parts
  (ease factors, intervals, difficulty scores, multipliers) are embedded as
  exact rationals `ℚ`; quality ratings and frequency ranks as `ℤ`/`ℕ`.
* Timestamps (`Date` values) are embedded as integer milliseconds since the
  epoch; `new Date()` becomes an explicit `now`/`today` parameter so the
  functions stay pure. `setHours(0,0,0,0)` becomes flooring to a whole
  number of days (the reference timezone is taken as UTC).
* `Math.round x` is `⌊x + 1/2⌋` (JavaScript rounds half toward +∞) and
  `Math.ceil`/`Math.max`/`Math.min` are the usual operations.
* Fields the TypeScript code guards with `?? default` are embedded as
  `Option` with `Option.getD default` at each use site, mirroring the code.
-/

namespace Arabico

/-- The five familiarity levels of `FamiliarityLevel` in `$lib/types`. -/
inductive FamiliarityLevel where
  | new
  | seen
  | learning
  | known
  | ignored
deriving DecidableEq, Repr

/-- The five review stages returned by `getReviewStage`. -/
inductive ReviewStage where
  | new
  | learning
  | young
  | mature
  | suspended
deriving DecidableEq, Repr

/-- The four review modes of `ReviewMode` in `$lib/types`. -/
inductive ReviewMode where
  | contextual
  | quick
  | recognition
  | recall
deriving DecidableEq, Repr

/-- The fields of `VocabularyEntry` that the scheduling engine reads.
Display-only fields (surface form, lemma, gloss, locations) are omitted;
`wordId` is kept because the forecast records it. -/
structure VocabularyEntry where
  wordId : String
  frequencyRank : ℤ
  familiarity : FamiliarityLevel
  lastReviewed : Option ℤ
  reviewCount : Option ℕ
  easeFactor : Option ℚ
  interval : Option ℚ
  nextReviewDate : Option ℤ
  consecutiveCorrect : Option ℕ
  difficultyScore : Option ℚ
deriving DecidableEq, Repr

/-- The `SRSResult` record returned by `calculateNextReview`. -/
structure SRSResult where
  newEaseFactor : ℚ
  newInterval : ℤ
  nextReviewDate : ℤ
  newConsecutiveCorrect : ℕ
deriving DecidableEq, Repr

/-- JavaScript `Math.round`: round half toward positive infinity. -/
def jsRound (x : ℚ) : ℤ := ⌊x + 1/2⌋

/-- The SM-2 ease-factor update applied first in `calculateNextReview`:
`EF + (0.1 - (5 - q) * (0.08 + (5 - q) * 0.02))`. -/
def sm2Ease (ef : ℚ) (q : ℤ) : ℚ :=
  ef + (1/10 - (5 - (q : ℚ)) * (2/25 + (5 - (q : ℚ)) * (1/50)))

/-- The clamp `Math.max(1.3, Math.min(2.5, x))` applied to the ease factor. -/
def clampEase (x : ℚ) : ℚ := max (13/10) (min (5/2) x)

/-- The helper `getFrequencyMultiplier` of `srs-algorithm.ts`: rank 0 or
negative (unranked) gives 1.0, then 1.3 / 1.15 / 1.0 / 0.9 by rank band. -/
def getFrequencyMultiplier (rank : ℤ) : ℚ :=
  if rank ≤ 0 then 1
  else if rank ≤ 100 then 13/10
  else if rank ≤ 500 then 23/20
  else if rank ≤ 1000 then 1
  else 9/10

/-- The `quality < 3` branch of `calculateNextReview`: interval resets to 1,
the streak resets to 0, and the already-clamped ease factor is reduced by a
further 0.2 and re-clamped from below. -/
def failureResult (today : ℤ) (ef1 : ℚ) : SRSResult :=
  { newEaseFactor := max (13/10) (ef1 - 1/5)
    newInterval := max 1 (min 365 1)
    nextReviewDate := today + max 1 (min 365 1)
    newConsecutiveCorrect := 0 }

/-- The base interval of the success branch of `calculateNextReview`:
1 day when the streak becomes 1, 6 days when it becomes 2, and
`Math.round(interval * (newEaseFactor + rootFamilyBonus))` afterwards. -/
def streakBase (e : VocabularyEntry) (ef1 bonus : ℚ) : ℤ :=
  if e.consecutiveCorrect.getD 0 + 1 = 1 then 1
  else if e.consecutiveCorrect.getD 0 + 1 = 2 then 6
  else jsRound (e.interval.getD 0 * (ef1 + bonus))

/-- The quality-based adjustment at the end of the success branch:
`Math.round(i * 1.1)` for quality 5, `Math.round(i * 0.9)` for quality 3,
unchanged otherwise. -/
def qualityAdjust (q : ℤ) (i : ℤ) : ℤ :=
  if q = 5 then jsRound ((i : ℚ) * (11/10))
  else if q = 3 then jsRound ((i : ℚ) * (9/10))
  else i

/-- The `quality ≥ 3` branch of `calculateNextReview`: the streak grows by
one, the base interval is 1 / 6 / `round(interval * (ef + bonus))` by streak,
then the frequency multiplier and the quality adjustment are applied with
rounding, and the result is clamped to `[1, 365]`. -/
def successResult (today : ℤ) (e : VocabularyEntry) (q : ℤ) (ef1 bonus : ℚ) :
    SRSResult :=
  let ncc := e.consecutiveCorrect.getD 0 + 1
  let base : ℤ := streakBase e ef1 bonus
  let i2 : ℤ := jsRound ((base : ℚ) * getFrequencyMultiplier e.frequencyRank)
  let i3 : ℤ := qualityAdjust q i2
  let ni : ℤ := max 1 (min 365 i3)
  { newEaseFactor := ef1
    newInterval := ni
    nextReviewDate := today + ni
    newConsecutiveCorrect := ncc }

/-- The function `calculateNextReview` of `srs-algorithm.ts`. `new Date()`
is modelled by the explicit `today` parameter (in days); the
`rootFamilyBonus = 0` default is passed explicitly by callers. -/
def calculateNextReview (today : ℤ) (e : VocabularyEntry) (q : ℤ)
    (bonus : ℚ) : SRSResult :=
  let ef1 := clampEase (sm2Ease (e.easeFactor.getD (5/2)) q)
  if q < 3 then failureResult today ef1 else successResult today e q ef1 bonus

/-- The function `shouldPromoteToKnown` of `srs-algorithm.ts`. -/
def shouldPromoteToKnown (e : VocabularyEntry) : Bool :=
  decide (5 ≤ e.consecutiveCorrect.getD 0) &&
  decide ((2 : ℚ) ≤ e.easeFactor.getD (5/2)) &&
  decide ((21 : ℚ) ≤ e.interval.getD 0)

/-- The function `getReviewStage` of `srs-algorithm.ts`. -/
def getReviewStage (e : VocabularyEntry) : ReviewStage :=
  if e.familiarity = FamiliarityLevel.ignored then ReviewStage.suspended
  else if e.reviewCount.getD 0 = 0 then ReviewStage.new
  else if e.interval.getD 0 < 1 then ReviewStage.learning
  else if 21 ≤ e.interval.getD 0 ∧ 5 ≤ e.consecutiveCorrect.getD 0 then
    ReviewStage.mature
  else ReviewStage.young

/-- The function `calculateDifficultyScore` of `srs-algorithm.ts`. -/
def calculateDifficultyScore (e : VocabularyEntry) : ℚ :=
  let ef := e.easeFactor.getD (5/2)
  let cc : ℚ := (e.consecutiveCorrect.getD 0 : ℚ)
  let rc : ℚ := (e.reviewCount.getD 0 : ℚ)
  let easeComponent := 1 - (ef - 13/10) / (5/2 - 13/10)
  let streakComponent := max 0 (1 - cc / 5)
  let reviewComponent := if 0 < rc then min 1 (rc / 20) * (3/10) else 0
  let difficulty :=
    easeComponent * (2/5) + streakComponent * (2/5) + reviewComponent * (1/5)
  max 0 (min 1 difficulty)

/-- A generic entry used to instantiate universally quantified theorems. -/
def sampleEntry : VocabularyEntry :=
  { wordId := "sample"
    frequencyRank := 0
    familiarity := FamiliarityLevel.learning
    lastReviewed := none
    reviewCount := some 3
    easeFactor := some (5/2)
    interval := some 1
    nextReviewDate := none
    consecutiveCorrect := some 1
    difficultyScore := none }

theorem clampEase_lower (x : ℚ) : 13/10 ≤ clampEase x := le_max_left _ _

theorem clampEase_upper (x : ℚ) : clampEase x ≤ 5/2 :=
  max_le (by norm_num) (min_le_left _ _)

/-- C1: for every entry, every quality rating in 0..5 and every root-family
bonus, the new ease factor returned by `calculateNextReview` lies within
`[1.3, 2.5]`: the SM-2 update is clamped, and the extra 0.2 failure penalty
is re-clamped from below (it can only lower a value already at most 2.5). -/
theorem calculateNextReview_ease_bounds (today : ℤ) (e : VocabularyEntry)
    (q : ℤ) (bonus : ℚ) (h0 : 0 ≤ q) (h5 : q ≤ 5) :
    13/10 ≤ (calculateNextReview today e q bonus).newEaseFactor ∧
      (calculateNextReview today e q bonus).newEaseFactor ≤ 5/2 := by
  rw [calculateNextReview]
  split
  · exact ⟨le_max_left _ _,
      max_le (by norm_num)
        (by
          have := clampEase_upper (sm2Ease (e.easeFactor.getD (5/2)) q)
          show clampEase (sm2Ease (e.easeFactor.getD (5/2)) q) - 1/5 ≤ 5/2
          linarith)⟩
  · exact ⟨clampEase_lower _, clampEase_upper _⟩

/-- Witness for C1 at `quality = 4`. -/
theorem calculateNextReview_ease_bounds_witness :
    (0 : ℤ) ≤ 4 ∧ (4 : ℤ) ≤ 5 ∧
      (13/10 ≤ (calculateNextReview 0 sampleEntry 4 0).newEaseFactor ∧
        (calculateNextReview 0 sampleEntry 4 0).newEaseFactor ≤ 5/2) :=
  ⟨by decide, by decide,
    calculateNextReview_ease_bounds 0 sampleEntry 4 0 (by decide) (by decide)⟩

/-- C2: a failed review (quality in 0..2) of an entry with a positive streak
resets the streak to 0, sets the interval to 1 day, and returns the clamped
SM-2 ease factor lowered by a further 0.2 and re-clamped to at least 1.3. -/
theorem calculateNextReview_failure (today : ℤ) (e : VocabularyEntry)
    (q : ℤ) (bonus : ℚ) (k : ℕ) (hk : e.consecutiveCorrect = some k)
    (hkpos : 0 < k) (hq0 : 0 ≤ q) (hq2 : q ≤ 2) :
    (calculateNextReview today e q bonus).newConsecutiveCorrect = 0 ∧
      (calculateNextReview today e q bonus).newInterval = 1 ∧
      (calculateNextReview today e q bonus).newEaseFactor =
        max (13/10)
          (clampEase (sm2Ease (e.easeFactor.getD (5/2)) q) - 1/5) := by
  have hlt : q < 3 := by omega
  rw [calculateNextReview, if_pos hlt]
  refine ⟨rfl, ?_, rfl⟩
  simp [failureResult]

/-- Witness for C2 at streak 1 and `quality = 1`. -/
theorem calculateNextReview_failure_witness :
    sampleEntry.consecutiveCorrect = some 1 ∧ (0 : ℕ) < 1 ∧
      (0 : ℤ) ≤ 1 ∧ (1 : ℤ) ≤ 2 ∧
      ((calculateNextReview 0 sampleEntry 1 0).newConsecutiveCorrect = 0 ∧
        (calculateNextReview 0 sampleEntry 1 0).newInterval = 1 ∧
        (calculateNextReview 0 sampleEntry 1 0).newEaseFactor =
          max (13/10)
            (clampEase (sm2Ease (sampleEntry.easeFactor.getD (5/2)) 1) -
              1/5)) :=
  ⟨rfl, by decide, by decide, by decide,
    calculateNextReview_failure 0 sampleEntry 1 0 1 rfl (by decide)
      (by decide) (by decide)⟩

/-- C3: for every entry and every quality rating in 0..5, the new interval
returned by `calculateNextReview` lies within `[1, 365]` days, because both
branches clamp the computed interval with `max 1 (min 365 _)`. -/
theorem calculateNextReview_interval_bounds (today : ℤ) (e : VocabularyEntry)
    (q : ℤ) (bonus : ℚ) (h0 : 0 ≤ q) (h5 : q ≤ 5) :
    1 ≤ (calculateNextReview today e q bonus).newInterval ∧
      (calculateNextReview today e q bonus).newInterval ≤ 365 := by
  rw [calculateNextReview]
  split
  · exact ⟨le_max_left _ _, max_le (by norm_num) (min_le_left _ _)⟩
  · exact ⟨le_max_left _ _, max_le (by norm_num) (min_le_left _ _)⟩

/-- Witness for C3 at `quality = 5`. -/
theorem calculateNextReview_interval_bounds_witness :
    (0 : ℤ) ≤ 5 ∧ (5 : ℤ) ≤ 5 ∧
      (1 ≤ (calculateNextReview 0 sampleEntry 5 0).newInterval ∧
        (calculateNextReview 0 sampleEntry 5 0).newInterval ≤ 365) :=
  ⟨by decide, by decide,
    calculateNextReview_interval_bounds 0 sampleEntry 5 0 (by decide)
      (by decide)⟩

/-- The scenario entry of the spec's "second success" test: interval 1 day,
streak 1, unranked. -/
def secondSuccessEntry : VocabularyEntry :=
  { sampleEntry with
    interval := some 1
    consecutiveCorrect := some 1
    frequencyRank := 0 }

theorem jsRound_intCast (n : ℤ) : jsRound ((n : ℚ)) = n := by
  rw [jsRound]
  refine Int.floor_eq_iff.mpr ⟨by norm_num, by norm_num⟩

theorem calculateNextReview_success_eq (today : ℤ) (e : VocabularyEntry)
    (q : ℤ) (bonus : ℚ) (h3 : 3 ≤ q) :
    calculateNextReview today e q bonus =
      successResult today e q
        (clampEase (sm2Ease (e.easeFactor.getD (5/2)) q)) bonus := by
  rw [calculateNextReview, if_neg (by omega)]

/-- C4: a successful review (quality in 3..5) increments the streak by one
and computes the interval as: base 1 day when the streak becomes 1, 6 days
when it becomes 2, `round(old_interval * (clamped ease + bonus))` when it is
3 or more; the base is then multiplied (with rounding) by the frequency
multiplier of the entry's rank and by the quality adjustment (1.1 for
quality 5, 0.9 for quality 3, none for quality 4) before the final clamp to
`[1, 365]`. In particular the spec's second-success scenario (interval 1,
streak 1, quality 4, rank 0) yields interval 6 ∈ [5, 8] and streak 2. -/
theorem calculateNextReview_success (today : ℤ) (e : VocabularyEntry)
    (q : ℤ) (bonus : ℚ) (h3 : 3 ≤ q) (h5 : q ≤ 5) :
    ((calculateNextReview today e q bonus).newConsecutiveCorrect =
        e.consecutiveCorrect.getD 0 + 1 ∧
      (calculateNextReview today e q bonus).newInterval =
        max 1 (min 365
          (qualityAdjust q
            (jsRound
              ((streakBase e
                  (clampEase (sm2Ease (e.easeFactor.getD (5/2)) q)) bonus :
                    ℚ) *
                getFrequencyMultiplier e.frequencyRank))))) ∧
      (5 ≤ (calculateNextReview 0 secondSuccessEntry 4 0).newInterval ∧
        (calculateNextReview 0 secondSuccessEntry 4 0).newInterval ≤ 8 ∧
        (calculateNextReview 0 secondSuccessEntry 4 0).newConsecutiveCorrect =
          2) := by
  constructor
  · rw [calculateNextReview_success_eq today e q bonus h3]
    exact ⟨rfl, rfl⟩
  · rw [calculateNextReview_success_eq 0 secondSuccessEntry 4 0 (by decide)]
    have h6 : jsRound ((6 : ℚ) * getFrequencyMultiplier 0) = 6 := by
      have h : (6 : ℚ) * getFrequencyMultiplier 0 = ((6 : ℤ) : ℚ) := by
        norm_num [getFrequencyMultiplier]
      rw [h, jsRound_intCast]
    simp only [successResult, streakBase, qualityAdjust, secondSuccessEntry,
      sampleEntry, Option.getD_some]
    norm_num [h6]

/-- Witness for C4 at `quality = 4` on the scenario entry. -/
theorem calculateNextReview_success_witness :
    (3 : ℤ) ≤ 4 ∧ (4 : ℤ) ≤ 5 ∧
      ((calculateNextReview 0 secondSuccessEntry 4 0).newConsecutiveCorrect =
          secondSuccessEntry.consecutiveCorrect.getD 0 + 1 ∧
        (calculateNextReview 0 secondSuccessEntry 4 0).newInterval =
          max 1 (min 365
            (qualityAdjust 4
              (jsRound
                ((streakBase secondSuccessEntry
                    (clampEase
                      (sm2Ease (secondSuccessEntry.easeFactor.getD (5/2)) 4))
                    0 : ℚ) *
                  getFrequencyMultiplier secondSuccessEntry.frequencyRank))))) ∧
      (5 ≤ (calculateNextReview 0 secondSuccessEntry 4 0).newInterval ∧
        (calculateNextReview 0 secondSuccessEntry 4 0).newInterval ≤ 8 ∧
        (calculateNextReview 0 secondSuccessEntry 4 0).newConsecutiveCorrect =
          2) :=
  ⟨by decide, by decide,
    calculateNextReview_success 0 secondSuccessEntry 4 0 (by decide)
      (by decide)⟩

/-- The spec's promotion-boundary entry: streak 5, ease 2.0, interval 21. -/
def promoteBoundaryEntry : VocabularyEntry :=
  { sampleEntry with
    consecutiveCorrect := some 5
    easeFactor := some 2
    interval := some 21 }

/-- C5: `shouldPromoteToKnown` is true exactly when the streak is at least
5, the ease factor at least 2.0 and the interval at least 21 days; it holds
at the boundary (5, 2.0, 21) and flips to false when any one of the three
fields drops below its threshold. -/
theorem shouldPromoteToKnown_iff :
    (∀ e : VocabularyEntry,
      shouldPromoteToKnown e = true ↔
        (5 ≤ e.consecutiveCorrect.getD 0 ∧
          (2 : ℚ) ≤ e.easeFactor.getD (5/2) ∧
          (21 : ℚ) ≤ e.interval.getD 0)) ∧
      shouldPromoteToKnown promoteBoundaryEntry = true ∧
      shouldPromoteToKnown
        { promoteBoundaryEntry with consecutiveCorrect := some 4 } = false ∧
      shouldPromoteToKnown
        { promoteBoundaryEntry with easeFactor := some (19/10) } = false ∧
      shouldPromoteToKnown
        { promoteBoundaryEntry with interval := some 20 } = false := by
  have hiff : ∀ e : VocabularyEntry,
      shouldPromoteToKnown e = true ↔
        (5 ≤ e.consecutiveCorrect.getD 0 ∧
          (2 : ℚ) ≤ e.easeFactor.getD (5/2) ∧
          (21 : ℚ) ≤ e.interval.getD 0) := by
    intro e
    simp [shouldPromoteToKnown, Bool.and_eq_true, decide_eq_true_eq, and_assoc]
  refine ⟨hiff, ?_, ?_, ?_, ?_⟩
  · rw [hiff]
    refine ⟨by simp [promoteBoundaryEntry, sampleEntry], ?_, ?_⟩ <;>
      simp [promoteBoundaryEntry, sampleEntry]
  · rw [Bool.eq_false_iff, Ne, hiff]
    simp [promoteBoundaryEntry, sampleEntry]
  · rw [Bool.eq_false_iff, Ne, hiff]
    simp [promoteBoundaryEntry, sampleEntry]
    norm_num
  · rw [Bool.eq_false_iff, Ne, hiff]
    simp [promoteBoundaryEntry, sampleEntry]
    norm_num

/-- An entry that satisfies the promotion thresholds but is suspended:
`shouldPromoteToKnown` ignores `familiarity` while `getReviewStage` checks
it first. -/
def ignoredPromotableEntry : VocabularyEntry :=
  { sampleEntry with
    familiarity := FamiliarityLevel.ignored
    consecutiveCorrect := some 5
    easeFactor := some 2
    interval := some 21
    reviewCount := some 6 }

/-- Counterexample to C6 as stated: an ignored entry over all three
promotion thresholds is promotable yet classifies as suspended. -/
theorem promote_not_mature_counterexample :
    shouldPromoteToKnown ignoredPromotableEntry = true ∧
      getReviewStage ignoredPromotableEntry ≠ ReviewStage.mature := by
  constructor
  · simp [shouldPromoteToKnown, ignoredPromotableEntry, sampleEntry]
  · simp [getReviewStage, ignoredPromotableEntry, sampleEntry]

/-- C6 (amended): for every entry that is not ignored and has been reviewed
at least once, `shouldPromoteToKnown` implies stage `mature`. -/
theorem promote_implies_mature (e : VocabularyEntry)
    (hf : e.familiarity ≠ FamiliarityLevel.ignored)
    (hr : e.reviewCount.getD 0 ≠ 0)
    (hp : shouldPromoteToKnown e = true) :
    getReviewStage e = ReviewStage.mature := by
  rw [shouldPromoteToKnown] at hp
  simp only [Bool.and_eq_true, decide_eq_true_eq] at hp
  obtain ⟨⟨hcc, _⟩, hiv⟩ := hp
  rw [getReviewStage, if_neg hf, if_neg hr,
    if_neg (not_lt.mpr (by linarith)), if_pos ⟨hiv, hcc⟩]

/-- The entry of `ignoredPromotableEntry` with its familiarity kept at
`learning`, used to witness the amended C6. -/
def maturePromotableEntry : VocabularyEntry :=
  { sampleEntry with
    consecutiveCorrect := some 5
    easeFactor := some 2
    interval := some 21
    reviewCount := some 6 }

/-- Witness for the amended C6. -/
theorem promote_implies_mature_witness :
    maturePromotableEntry.familiarity ≠ FamiliarityLevel.ignored ∧
      maturePromotableEntry.reviewCount.getD 0 ≠ 0 ∧
      shouldPromoteToKnown maturePromotableEntry = true ∧
      getReviewStage maturePromotableEntry = ReviewStage.mature := by
  have hsp : shouldPromoteToKnown maturePromotableEntry = true := by
    simp [shouldPromoteToKnown, maturePromotableEntry, sampleEntry]
  exact ⟨by decide, by decide, hsp,
    promote_implies_mature maturePromotableEntry (by decide) (by decide) hsp⟩

/-- C7: `getReviewStage` reads only the familiarity, review count, interval
and streak of an entry, so two entries agreeing on those four fields
classify identically whatever their other fields hold. -/
theorem getReviewStage_four_fields (e1 e2 : VocabularyEntry)
    (hf : e1.familiarity = e2.familiarity)
    (hr : e1.reviewCount = e2.reviewCount)
    (hi : e1.interval = e2.interval)
    (hc : e1.consecutiveCorrect = e2.consecutiveCorrect) :
    getReviewStage e1 = getReviewStage e2 := by
  rw [getReviewStage, getReviewStage, hf, hr, hi, hc]

/-- First of two entries agreeing exactly on the four stage fields. -/
def stageTwinA : VocabularyEntry :=
  { wordId := "twin-a"
    frequencyRank := 7
    familiarity := FamiliarityLevel.learning
    lastReviewed := some 5000
    reviewCount := some 2
    easeFactor := some 2
    interval := some 3
    nextReviewDate := some 99000
    consecutiveCorrect := some 2
    difficultyScore := some (1/4) }

/-- Second twin: same four stage fields, every other field different. -/
def stageTwinB : VocabularyEntry :=
  { wordId := "twin-b"
    frequencyRank := 1000
    familiarity := FamiliarityLevel.learning
    lastReviewed := none
    reviewCount := some 2
    easeFactor := some (3/2)
    interval := some 3
    nextReviewDate := none
    consecutiveCorrect := some 2
    difficultyScore := none }

/-- Witness for C7 on the twin entries. -/
theorem getReviewStage_four_fields_witness :
    stageTwinA.familiarity = stageTwinB.familiarity ∧
      stageTwinA.reviewCount = stageTwinB.reviewCount ∧
      stageTwinA.interval = stageTwinB.interval ∧
      stageTwinA.consecutiveCorrect = stageTwinB.consecutiveCorrect ∧
      getReviewStage stageTwinA = getReviewStage stageTwinB :=
  ⟨rfl, rfl, rfl, rfl,
    getReviewStage_four_fields stageTwinA stageTwinB rfl rfl rfl rfl⟩

/-- Milliseconds in one day, the divisor `1000 * 60 * 60 * 24` used by
`generateReviewForecast`. -/
def msPerDay : ℤ := 86400000

/-- `setHours(0, 0, 0, 0)` normalization: the calendar-day index of a
millisecond timestamp (floor division, reference timezone UTC). -/
def floorDay (t : ℤ) : ℤ := Int.fdiv t msPerDay

/-- The due day computed by `generateReviewForecast` for one entry:
entries with no `nextReviewDate` land on day 0; otherwise
`Math.max(0, Math.ceil((nextMidnight - todayMidnight) / msPerDay))`. -/
def dueDay (todayDay : ℤ) (e : VocabularyEntry) : ℤ :=
  match e.nextReviewDate with
  | none => 0
  | some t =>
      max 0
        ⌈((floorDay t * msPerDay - todayDay * msPerDay : ℤ) : ℚ) /
          (msPerDay : ℚ)⌉

/-- One bucket of the review forecast (`ReviewForecast` in `$lib/types`);
the ISO date string is modelled by the bucket's midnight timestamp. -/
structure ForecastDay where
  date : ℤ
  dueCount : ℕ
  words : List (String × ReviewStage)
deriving DecidableEq, Repr

/-- `forecast[dueDay].dueCount++` together with
`forecast[dueDay].words.push(...)`: bump the bucket at an index. -/
def bumpAt : List ForecastDay → ℕ → String × ReviewStage → List ForecastDay
  | [], _, _ => []
  | fd :: rest, 0, w =>
      { fd with dueCount := fd.dueCount + 1, words := fd.words ++ [w] } :: rest
  | fd :: rest, Nat.succ n, w => fd :: bumpAt rest n w

/-- The body of the entry loop of `generateReviewForecast`: skip suspended
entries, drop entries due at or beyond the window, bump the bucket of the
rest. -/
def forecastStep (todayDay : ℤ) (days : ℕ) (acc : List ForecastDay)
    (e : VocabularyEntry) : List ForecastDay :=
  if getReviewStage e = ReviewStage.suspended then acc
  else if dueDay todayDay e < (days : ℤ) then
    bumpAt acc (dueDay todayDay e).toNat (e.wordId, getReviewStage e)
  else acc

/-- The function `generateReviewForecast` of `srs-algorithm.ts`: `days`
zeroed buckets starting today, then one pass over the entries. -/
def generateReviewForecast (now : ℤ) (entries : List VocabularyEntry)
    (days : ℕ) : List ForecastDay :=
  let todayDay := floorDay now
  let init : List ForecastDay :=
    (List.range days).map fun (i : ℕ) =>
      { date := todayDay * msPerDay + (i : ℤ) * msPerDay
        dueCount := 0
        words := [] }
  entries.foldl (forecastStep todayDay days) init

/-- Total due count of a forecast. -/
def sumDue (l : List ForecastDay) : ℕ := (l.map ForecastDay.dueCount).sum

/-- The entries a forecast window of `days` days counts: not suspended and
due strictly before day `days`. -/
def inForecast (todayDay : ℤ) (days : ℕ) (e : VocabularyEntry) : Bool :=
  decide (getReviewStage e ≠ ReviewStage.suspended) &&
  decide (dueDay todayDay e < (days : ℤ))

theorem dueDay_nonneg (todayDay : ℤ) (e : VocabularyEntry) :
    0 ≤ dueDay todayDay e := by
  rw [dueDay]
  cases e.nextReviewDate with
  | none => exact le_refl 0
  | some t => exact le_max_left _ _

theorem bumpAt_length (l : List ForecastDay) (n : ℕ)
    (w : String × ReviewStage) : (bumpAt l n w).length = l.length := by
  induction l generalizing n with
  | nil => rfl
  | cons fd rest ih =>
      cases n with
      | zero => rfl
      | succ m => simp [bumpAt, ih]

theorem bumpAt_sumDue (l : List ForecastDay) (n : ℕ)
    (w : String × ReviewStage) (h : n < l.length) :
    sumDue (bumpAt l n w) = sumDue l + 1 := by
  induction l generalizing n with
  | nil => simp at h
  | cons fd rest ih =>
      cases n with
      | zero =>
          simp only [bumpAt, sumDue, List.map_cons, List.sum_cons]
          omega
      | succ m =>
          have hm : m < rest.length := by simpa using h
          simp only [bumpAt, sumDue, List.map_cons, List.sum_cons]
          rw [show (rest.map ForecastDay.dueCount).sum = sumDue rest from rfl,
            show ((bumpAt rest m w).map ForecastDay.dueCount).sum =
              sumDue (bumpAt rest m w) from rfl, ih m hm]
          omega

theorem forecastStep_length (todayDay : ℤ) (days : ℕ)
    (acc : List ForecastDay) (e : VocabularyEntry) :
    (forecastStep todayDay days acc e).length = acc.length := by
  rw [forecastStep]
  split
  · rfl
  · split
    · exact bumpAt_length _ _ _
    · rfl

theorem forecastStep_sumDue (todayDay : ℤ) (days : ℕ)
    (acc : List ForecastDay) (e : VocabularyEntry)
    (hlen : acc.length = days) :
    sumDue (forecastStep todayDay days acc e) =
      sumDue acc + (if inForecast todayDay days e then 1 else 0) := by
  rw [forecastStep, inForecast]
  by_cases hs : getReviewStage e = ReviewStage.suspended
  · simp [hs]
  · rw [if_neg hs]
    by_cases hd : dueDay todayDay e < (days : ℤ)
    · have hnn := dueDay_nonneg todayDay e
      have ht : (dueDay todayDay e).toNat < acc.length := by omega
      rw [if_pos hd, bumpAt_sumDue _ _ _ ht]
      simp [hs, hd]
    · rw [if_neg hd]
      simp [hs, hd]

theorem foldl_forecastStep_length (todayDay : ℤ) (days : ℕ)
    (entries : List VocabularyEntry) (acc : List ForecastDay) :
    (entries.foldl (forecastStep todayDay days) acc).length = acc.length := by
  induction entries generalizing acc with
  | nil => rfl
  | cons e es ih =>
      rw [List.foldl_cons, ih, forecastStep_length]

theorem foldl_forecastStep_sumDue (todayDay : ℤ) (days : ℕ)
    (entries : List VocabularyEntry) (acc : List ForecastDay)
    (hlen : acc.length = days) :
    sumDue (entries.foldl (forecastStep todayDay days) acc) =
      sumDue acc + (entries.filter (inForecast todayDay days)).length := by
  induction entries generalizing acc with
  | nil => simp
  | cons e es ih =>
      rw [List.foldl_cons,
        ih (forecastStep todayDay days acc e)
          (by rw [forecastStep_length, hlen]),
        forecastStep_sumDue todayDay days acc e hlen, List.filter_cons]
      by_cases hc : inForecast todayDay days e
      · simp [hc]
        omega
      · simp [hc]

theorem sum_map_zero_fn {α : Type} (g : α → ℕ) (hg : ∀ a, g a = 0) :
    ∀ L : List α, (L.map g).sum = 0
  | [] => rfl
  | a :: l => by simp [hg a, sum_map_zero_fn g hg l]

/-- C8: a forecast over a window of `days` days has exactly `days` buckets,
and the total due count over all buckets equals the number of non-suspended
entries whose due day (0 for never-scheduled entries, otherwise
`max(0, ceil((next review midnight - today midnight) / 1 day))`) is
strictly below `days`; entries due at or beyond the window are counted in
no bucket. -/
theorem generateReviewForecast_conservation (now : ℤ)
    (entries : List VocabularyEntry) (days : ℕ) :
    (generateReviewForecast now entries days).length = days ∧
      sumDue (generateReviewForecast now entries days) =
        (entries.filter (inForecast (floorDay now) days)).length := by
  rw [generateReviewForecast]
  have hlen :
      ((List.range days).map fun (i : ℕ) =>
        ({ date := floorDay now * msPerDay + (i : ℤ) * msPerDay
           dueCount := 0
           words := [] } : ForecastDay)).length = days := by
    simp
  constructor
  · rw [foldl_forecastStep_length, hlen]
  · rw [foldl_forecastStep_sumDue _ _ _ _ hlen]
    simp only [sumDue, List.map_map]
    rw [sum_map_zero_fn
      (ForecastDay.dueCount ∘ fun (i : ℕ) =>
        ({ date := floorDay now * msPerDay + (i : ℤ) * msPerDay
           dueCount := 0
           words := [] } : ForecastDay))
      (fun _ => rfl) (List.range days)]
    omega

/-- The filter predicate of `getPracticeEntries`: skip suspended entries,
skip never-reviewed entries, skip entries reviewed within the last hour
(`lastReview > oneHourAgo`), keep everything else even when not due. -/
def practicePred (now : ℤ) (e : VocabularyEntry) : Bool :=
  if e.familiarity = FamiliarityLevel.ignored then false
  else if e.reviewCount.getD 0 = 0 then false
  else
    match e.lastReviewed with
    | some t => if now - 3600000 < t then false else true
    | none => true

/-- The function `getPracticeEntries` of `srs-algorithm.ts`; `new Date()`
is the explicit `now` in milliseconds and one hour is 3600000 ms. -/
def getPracticeEntries (now : ℤ) (entries : List VocabularyEntry) :
    List VocabularyEntry :=
  entries.filter (practicePred now)

theorem practicePred_eq_true_iff (now : ℤ) (e : VocabularyEntry) :
    practicePred now e = true ↔
      (e.familiarity ≠ FamiliarityLevel.ignored ∧
        0 < e.reviewCount.getD 0 ∧
        ∀ t, e.lastReviewed = some t → t ≤ now - 3600000) := by
  rw [practicePred]
  by_cases h1 : e.familiarity = FamiliarityLevel.ignored
  · simp [h1]
  · rw [if_neg h1]
    by_cases h2 : e.reviewCount.getD 0 = 0
    · simp [h2]
    · rw [if_neg h2]
      have h2' : 0 < e.reviewCount.getD 0 := Nat.pos_of_ne_zero h2
      cases hl : e.lastReviewed with
      | none => simp [h1, h2', hl]
      | some t0 =>
          have hmatch :
              (match some t0 with
                | some t => if now - 3600000 < t then false else true
                | none => true) =
                (if now - 3600000 < t0 then false else true) := rfl
          rw [hmatch]
          by_cases h3 : now - 3600000 < t0
          · rw [if_pos h3]
            refine ⟨fun hfalse => absurd hfalse (by simp), ?_⟩
            rintro ⟨-, -, hall⟩
            exact absurd (hall t0 rfl) (not_le.mpr h3)
          · rw [if_neg h3]
            refine ⟨fun _ => ⟨h1, h2', fun t ht => ?_⟩, fun _ => rfl⟩
            rw [Option.some_inj] at ht
            omega

/-- The current time used in the practice-mode scenario: 3 hours past the
epoch. -/
def practiceNow : ℤ := 10800000

/-- An entry last reviewed 30 minutes before `practiceNow`. -/
def recentEntry : VocabularyEntry :=
  { sampleEntry with lastReviewed := some 9000000, reviewCount := some 1 }

/-- An entry last reviewed 2 hours before `practiceNow`, with a due date
still in the future. -/
def staleEntry : VocabularyEntry :=
  { sampleEntry with
    lastReviewed := some 3600000
    reviewCount := some 1
    nextReviewDate := some 99000000 }

/-- C9: the practice queue keeps exactly the entries of the input that are
not ignored, have a positive review count and were not reviewed within the
last hour, ignoring the due date; in the spec scenario the entry reviewed
30 minutes ago drops out and the not-yet-due entry reviewed 2 hours ago
stays in. -/
theorem getPracticeEntries_spec :
    (∀ (now : ℤ) (entries : List VocabularyEntry) (e : VocabularyEntry),
      e ∈ getPracticeEntries now entries ↔
        (e ∈ entries ∧ e.familiarity ≠ FamiliarityLevel.ignored ∧
          0 < e.reviewCount.getD 0 ∧
          ∀ t, e.lastReviewed = some t → t ≤ now - 3600000)) ∧
      recentEntry ∉ getPracticeEntries practiceNow [recentEntry, staleEntry] ∧
      staleEntry ∈ getPracticeEntries practiceNow [recentEntry, staleEntry] := by
  have hmain : ∀ (now : ℤ) (entries : List VocabularyEntry)
      (e : VocabularyEntry),
      e ∈ getPracticeEntries now entries ↔
        (e ∈ entries ∧ e.familiarity ≠ FamiliarityLevel.ignored ∧
          0 < e.reviewCount.getD 0 ∧
          ∀ t, e.lastReviewed = some t → t ≤ now - 3600000) := by
    intro now entries e
    rw [getPracticeEntries, List.mem_filter, practicePred_eq_true_iff]
  refine ⟨hmain, ?_, ?_⟩
  · intro hmem
    obtain ⟨-, -, -, hall⟩ := (hmain _ _ _).mp hmem
    have := hall 9000000 rfl
    rw [practiceNow] at this
    omega
  · refine (hmain _ _ _).mpr
      ⟨by simp, by decide, by decide, fun t ht => ?_⟩
    rw [show staleEntry.lastReviewed = some 3600000 from rfl,
      Option.some_inj] at ht
    rw [practiceNow]
    omega

/-- The mode-dependent difficulty weight of `sortByPriority`:
500000 for quick sessions, 1000000 otherwise. -/
def difficultyWeight (mode : ReviewMode) : ℚ :=
  if mode = ReviewMode.quick then 500000 else 1000000

/-- The overdue component of the priority: `now - nextReviewDate` in
milliseconds, and the full epoch time `now` when no date is set. -/
def overdueMs (now : ℤ) (e : VocabularyEntry) : ℚ :=
  match e.nextReviewDate with
  | some t => ((now - t : ℤ) : ℚ)
  | none => (now : ℚ)

/-- The difficulty used by `sortByPriority`:
`difficultyScore ?? calculateDifficultyScore(entry)`. -/
def entryDifficulty (e : VocabularyEntry) : ℚ :=
  e.difficultyScore.getD (calculateDifficultyScore e)

/-- The priority formula of `sortByPriority`:
`overdue + difficulty * weight`. -/
def priorityOf (mode : ReviewMode) (now : ℤ) (e : VocabularyEntry) : ℚ :=
  overdueMs now e + entryDifficulty e * difficultyWeight mode

/-- The descending-priority comparator of `sortByPriority`; ties keep input
order, matching the stable JavaScript sort with `bPriority - aPriority`. -/
def priorityRel (mode : ReviewMode) (now : ℤ) :
    VocabularyEntry → VocabularyEntry → Prop :=
  fun a b => priorityOf mode now b ≤ priorityOf mode now a

instance (mode : ReviewMode) (now : ℤ) :
    DecidableRel (priorityRel mode now) :=
  fun _ _ => inferInstanceAs (Decidable (_ ≤ _))

/-- The function `sortByPriority` of `review-queue.ts`, modelled as a
stable sort by descending priority. -/
def sortByPriority (mode : ReviewMode) (now : ℤ)
    (words : List VocabularyEntry) : List VocabularyEntry :=
  List.insertionSort (priorityRel mode now) words

theorem calculateDifficultyScore_nonneg (e : VocabularyEntry) :
    0 ≤ calculateDifficultyScore e := le_max_left _ _

theorem calculateDifficultyScore_le_one (e : VocabularyEntry) :
    calculateDifficultyScore e ≤ 1 :=
  max_le (by norm_num) (min_le_left _ _)

theorem entryDifficulty_bounds (e : VocabularyEntry)
    (hd : ∀ d, e.difficultyScore = some d → 0 ≤ d ∧ d ≤ 1) :
    0 ≤ entryDifficulty e ∧ entryDifficulty e ≤ 1 := by
  rw [entryDifficulty]
  cases h : e.difficultyScore with
  | none =>
      exact ⟨calculateDifficultyScore_nonneg e,
        calculateDifficultyScore_le_one e⟩
  | some d => exact hd d h

theorem difficultyWeight_pos (mode : ReviewMode) :
    0 < difficultyWeight mode := by
  rw [difficultyWeight]
  split <;> norm_num

theorem priority_late_lt_never (mode : ReviewMode) (now : ℤ)
    (a b : VocabularyEntry) (t : ℤ) (hat : a.nextReviewDate = some t)
    (hwt : difficultyWeight mode < (t : ℚ)) (hb : b.nextReviewDate = none)
    (hda : 0 ≤ entryDifficulty a ∧ entryDifficulty a ≤ 1)
    (hdb : 0 ≤ entryDifficulty b ∧ entryDifficulty b ≤ 1) :
    priorityOf mode now a < priorityOf mode now b := by
  have hw := difficultyWeight_pos mode
  have h1 : 0 ≤ entryDifficulty b * difficultyWeight mode :=
    mul_nonneg hdb.1 (le_of_lt hw)
  have h2 : entryDifficulty a * difficultyWeight mode ≤
      difficultyWeight mode :=
    mul_le_of_le_one_left (le_of_lt hw) hda.2
  rw [priorityOf, priorityOf, overdueMs, overdueMs, hat, hb]
  push_cast
  linarith

/-- C10: `sortByPriority` hands a never-scheduled entry the full epoch time
`now` as its overdue component, so (difficulty scores lying in [0, 1])
never-scheduled entries outrank every entry whose `nextReviewDate` exceeds
the mode's difficulty weight in milliseconds: in the sorted queue no such
scheduled entry ever precedes a never-scheduled one. -/
theorem sortByPriority_never_scheduled_first (mode : ReviewMode) (now : ℤ)
    (words : List VocabularyEntry)
    (hd : ∀ e ∈ words, ∀ d, e.difficultyScore = some d → 0 ≤ d ∧ d ≤ 1) :
    (∀ e : VocabularyEntry, e.nextReviewDate = none →
        overdueMs now e = (now : ℚ)) ∧
      (sortByPriority mode now words).Pairwise
        (fun a b => ∀ t : ℤ, a.nextReviewDate = some t →
          difficultyWeight mode < (t : ℚ) → b.nextReviewDate ≠ none) := by
  refine ⟨fun e he => by rw [overdueMs, he], ?_⟩
  haveI : IsTotal VocabularyEntry (priorityRel mode now) :=
    ⟨fun a b => le_total _ _⟩
  haveI : IsTrans VocabularyEntry (priorityRel mode now) :=
    ⟨fun a b c h1 h2 => le_trans h2 h1⟩
  have hsorted : (sortByPriority mode now words).Pairwise
      (priorityRel mode now) :=
    List.sorted_insertionSort (priorityRel mode now) words
  have hperm := List.perm_insertionSort (priorityRel mode now) words
  refine hsorted.imp_of_mem ?_
  intro a b hma hmb hr t hat hwt hbnone
  have hda := entryDifficulty_bounds a (hd a (hperm.mem_iff.mp hma))
  have hdb := entryDifficulty_bounds b (hd b (hperm.mem_iff.mp hmb))
  have hlt := priority_late_lt_never mode now a b t hat hwt hbnone hda hdb
  exact absurd hr (not_le.mpr hlt)

/-- A never-scheduled entry with the maximal difficulty score. -/
def neverEntry : VocabularyEntry :=
  { sampleEntry with nextReviewDate := none, difficultyScore := some 1 }

/-- An entry scheduled well after the epoch with the minimal difficulty
score. -/
def lateEntry : VocabularyEntry :=
  { sampleEntry with
    nextReviewDate := some 5000000
    difficultyScore := some 0 }

/-- Witness for C10 on a two-entry queue in contextual mode. -/
theorem sortByPriority_never_scheduled_first_witness :
    (∀ e : VocabularyEntry, e.nextReviewDate = none →
        overdueMs 10000000 e = (10000000 : ℚ)) ∧
      (sortByPriority ReviewMode.contextual 10000000
          [lateEntry, neverEntry]).Pairwise
        (fun a b => ∀ t : ℤ, a.nextReviewDate = some t →
          difficultyWeight ReviewMode.contextual < (t : ℚ) →
          b.nextReviewDate ≠ none) := by
  refine sortByPriority_never_scheduled_first ReviewMode.contextual 10000000
    [lateEntry, neverEntry] ?_
  intro e he d hdd
  rcases List.mem_cons.mp he with rfl | he2
  · rw [show lateEntry.difficultyScore = some 0 from rfl,
      Option.some_inj] at hdd
    subst hdd
    norm_num
  · rcases List.mem_cons.mp he2 with rfl | he3
    · rw [show neverEntry.difficultyScore = some 1 from rfl,
        Option.some_inj] at hdd
      subst hdd
      norm_num
    · cases he3

end Arabico
